import Mathlib

/-!
Shallow embedding of the responsive-image attribute resolver
(`src/scripts/preload-assets.ts`) and of the related-posts query
(`src/utils/blog.ts`) of the zg-codes repository.

Modelling conventions: JavaScript numbers are exact rationals (`ℚ`),
`undefined`/`null` is `Option.none`, and JavaScript truthiness is explicit
(`0` and the empty string are falsy).  The asynchronous breakpoint-transform
collaborator is a pure function parameter.  Every definition is translated
from the TypeScript source.
-/

namespace ZgCodes

attribute [local semireducible] Rat.mul Rat.add Rat.inv Rat.sub Rat.ofScientific

/-- Truthiness of an optional JavaScript number: `undefined` and `0` are
falsy (`NaN`, also falsy, has no counterpart in the rational model). -/
def numTruthy : Option ℚ → Bool
  | none => false
  | some q => q != 0

/-- Truthiness of an optional JavaScript string: `undefined` and `""` are
falsy. -/
def strTruthy : Option String → Bool
  | none => false
  | some s => s != ""

/-- The JavaScript idiom `(x && Number(x)) || undefined` applied to an
optional number: both `undefined` and `0` collapse to `undefined`. -/
def normNum (o : Option ℚ) : Option ℚ :=
  if numTruthy o then o else none

/-- Rendering of a JavaScript number inside a template literal.  Integral
values print as decimal integers, which covers every value the claims
evaluate; non-integral rationals fall back to a `num/den` rendering (the
source would print a decimal float, but no claim depends on that case). -/
def qToString (q : ℚ) : String :=
  if q.den = 1 then toString q.num else toString q.num ++ "/" ++ toString q.den

/-- The `config.deviceSizes` table from `preload-assets.ts`
(`Object.values(DeviceSizes)`). -/
def deviceSizes : List ℚ :=
  [640, 750, 828, 960, 1080, 1280, 1668, 1920, 2048, 2560, 3200, 3840, 4480, 5120, 6016]

/-- TS `computeHeight`: `Math.floor(width / aspectRatio)`. -/
def computeHeight (width aspectRatio : ℚ) : ℚ :=
  ((width / aspectRatio).floor : ℚ)

/-- The `aspectRatio` input of `parseAspectRatio`:
`number | string | null | undefined`. -/
inductive AspectRatioInput
  | num (q : ℚ)
  | str (s : String)
  | nullish
deriving DecidableEq

/-- JavaScript `\s` restricted to ASCII whitespace characters (the claims use
no whitespace inside aspect-ratio strings). -/
def isJsSpace (c : Char) : Bool :=
  c = ' ' || c = '\t' || c = '\n' || c = '\r' || c = '\x0b' || c = '\x0c'

/-- Numeric value of a digit string: the effect of `Number` on the digit-only
capture groups of the aspect-ratio regular expression. -/
def digitsToNat (ds : List Char) : Nat :=
  ds.foldl (fun acc c => 10 * acc + (c.toNat - '0'.toNat)) 0

/-- Attempt to match the regular expression `(\d+)\s*[/:]\s*(\d+)` at the
head of `cs`, returning the two captured numbers.  Greedy matching of `\d+`
and `\s*` never needs backtracking here: a digit is neither whitespace nor
`/` nor `:`, and a whitespace character is neither `/` nor `:`. -/
def matchRatioAt (cs : List Char) : Option (Nat × Nat) :=
  let ds1 := cs.takeWhile Char.isDigit
  if ds1.isEmpty then none
  else
    match (cs.dropWhile Char.isDigit).dropWhile isJsSpace with
    | c :: rest =>
      if c = '/' || c = ':' then
        let ds2 := (rest.dropWhile isJsSpace).takeWhile Char.isDigit
        if ds2.isEmpty then none else some (digitsToNat ds1, digitsToNat ds2)
      else none
    | [] => none

/-- Leftmost match of `(\d+)\s*[/:]\s*(\d+)` in a character list: the search
performed by `aspectRatio.match(...)` in `parseAspectRatio`. -/
def findRatioMatch : List Char → Option (Nat × Nat)
  | [] => none
  | c :: cs =>
    match matchRatioAt (c :: cs) with
    | some r => some r
    | none => findRatioMatch cs

/-- JavaScript `parseFloat` restricted to finite decimal literals: optional
leading whitespace and sign, integer digits, an optional fractional part and
an optional exponent; `none` where the source yields `NaN`.  (`Infinity`
inputs are outside the rational model and appear in no claim.) -/
def parseFloat (s : String) : Option ℚ :=
  let cs0 := s.data.dropWhile isJsSpace
  let signRest : ℚ × List Char :=
    match cs0 with
    | '-' :: rest => (-1, rest)
    | '+' :: rest => (1, rest)
    | _ => (1, cs0)
  let sign := signRest.1
  let cs1 := signRest.2
  let intPart := cs1.takeWhile Char.isDigit
  let cs2 := cs1.dropWhile Char.isDigit
  let fracRest : List Char × List Char :=
    match cs2 with
    | '.' :: rest => (rest.takeWhile Char.isDigit, rest.dropWhile Char.isDigit)
    | _ => ([], cs2)
  let fracPart := fracRest.1
  let cs3 := fracRest.2
  if intPart.isEmpty && fracPart.isEmpty then none
  else
    let mantissa : ℚ :=
      (digitsToNat intPart : ℚ) + (digitsToNat fracPart : ℚ) / (10 : ℚ) ^ fracPart.length
    let expVal : ℤ :=
      match cs3 with
      | e :: rest =>
        if e = 'e' || e = 'E' then
          let esignRest : ℤ × List Char :=
            match rest with
            | '-' :: r2 => (-1, r2)
            | '+' :: r2 => (1, r2)
            | _ => (1, rest)
          let eds := esignRest.2.takeWhile Char.isDigit
          if eds.isEmpty then 0 else esignRest.1 * (digitsToNat eds : ℤ)
        else 0
      | [] => 0
    some (sign * mantissa * (10 : ℚ) ^ expVal)

/-- TS `parseAspectRatio`: numbers pass through; strings are first searched
for the pattern `(\d+)\s*[/:]\s*(\d+)` — a match returns `num/den` when the
captured denominator is truthy (nonzero) and `undefined` otherwise — and
strings without a pattern match are handed to `parseFloat`; `null` and
`undefined` inputs yield `undefined`. -/
def parseAspectRatio : AspectRatioInput → Option ℚ
  | .num q => some q
  | .str s =>
    match findRatioMatch s.data with
    | some (n, d) => if d ≠ 0 then some ((n : ℚ) / (d : ℚ)) else none
    | none => parseFloat s
  | .nullish => none

/-- TS `Layout` union type. -/
inductive Layout
  | fixed | constrained | fullWidth | cover | responsive | contained
deriving DecidableEq

/-- TS `getSizes`: `undefined` when `width` or `layout` is falsy, otherwise a
layout-specific `sizes` string (`undefined` for layouts other than
`constrained`, `fixed` and `fullWidth`). -/
def getSizes (width : Option ℚ) (layout : Option Layout) : Option String :=
  match width, layout with
  | some w, some l =>
    if w = 0 then none
    else
      match l with
      | .constrained =>
        some ("(min-width: " ++ qToString w ++ "px) " ++ qToString w ++ "px, 100vw")
      | .fixed => some (qToString w ++ "px")
      | .fullWidth => some "100vw"
      | _ => none
  | _, _ => none

/-- TS `pixelate`: `value || value === 0 ? ${value}px : undefined`; in the
rational model every present number (including `0`) is rendered, and only
`undefined` is dropped (`NaN` has no counterpart). -/
def pixelate : Option ℚ → Option String
  | some v => some (qToString v ++ "px")
  | none => none

/-- The `aspect-ratio` value `aspectRatio ? ${aspectRatio} : undefined` used
by `getStyle`: falsy (`undefined` or `0`) aspect ratios are dropped. -/
def ratioValue : Option ℚ → Option String
  | some a => if a = 0 then none else some (qToString a)
  | none => none

/-- The `styleEntries` array built by TS `getStyle` before filtering:
base `object-fit`/`object-position`, background handling, then the
layout-specific entries appended in source order. -/
def styleEntries (width height aspectRatio : Option ℚ) (layout : Option Layout)
    (objectFit objectPosition : String) (background : Option String) :
    List (String × Option String) :=
  [("object-fit", some objectFit), ("object-position", some objectPosition)]
    ++ (match background with
        | some b =>
          if b.startsWith "https:" || b.startsWith "http:" || b.startsWith "data:" then
            [("background-image", some ("url(" ++ b ++ ")")),
             ("background-size", some "cover"),
             ("background-repeat", some "no-repeat")]
          else [("background", some b)]
        | none => [("background", none)])
    ++ (if layout = some Layout.fixed then
          [("width", pixelate width), ("height", pixelate height),
           ("object-position", some "top left")]
        else [])
    ++ (if layout = some Layout.constrained then
          [("max-width", pixelate width), ("max-height", pixelate height),
           ("aspect-ratio", ratioValue aspectRatio), ("width", some "100%")]
        else [])
    ++ (if layout = some Layout.fullWidth then
          [("width", some "100%"), ("aspect-ratio", ratioValue aspectRatio),
           ("height", pixelate height)]
        else [])
    ++ (if layout = some Layout.responsive then
          [("width", some "100%"), ("height", some "auto"),
           ("aspect-ratio", ratioValue aspectRatio)]
        else [])
    ++ (if layout = some Layout.contained then
          [("max-width", some "100%"), ("max-height", some "100%"),
           ("object-fit", some "contain"), ("aspect-ratio", ratioValue aspectRatio)]
        else [])
    ++ (if layout = some Layout.cover then
          [("max-width", some "100%"), ("max-height", some "100%")]
        else [])

/-- The filter `styleEntries.filter(([, value]) => value)`: entries with a
falsy value (`undefined` or the empty string) are removed. -/
def filterStyleEntries (es : List (String × Option String)) : List (String × String) :=
  es.filterMap fun e =>
    match e.2 with
    | some v => if v = "" then none else some (e.1, v)
    | none => none

/-- Insertion of one key/value pair into an insertion-ordered string map:
a duplicate key keeps its original position but takes the new value, as in a
JavaScript object literal. -/
def upsert : List (String × String) → String → String → List (String × String)
  | [], k, v => [(k, v)]
  | (k0, v0) :: rest, k, v =>
    if k0 = k then (k0, v) :: rest else (k0, v0) :: upsert rest k v

/-- TS `Object.fromEntries`: keys keep the position of their first
occurrence and the value is the last one written for that key. -/
def fromEntries (es : List (String × String)) : List (String × String) :=
  es.foldl (fun acc e => upsert acc e.1 e.2) []

/-- JavaScript `Array.prototype.join` with a separator. -/
def joinSep (sep : String) : List String → String
  | [] => ""
  | [a] => a
  | a :: b :: rest => a ++ sep ++ joinSep sep (b :: rest)

/-- The serialization step of TS `getStyle`:
`Object.entries(styles).map(([key, value]) => ${key}: ${value};).join(' ')`. -/
def serializeStyles (m : List (String × String)) : String :=
  joinSep " " (m.map fun e => e.1 ++ ": " ++ e.2 ++ ";")

/-- TS `getStyle` (lines 215–282): style entries, truthiness filter,
insertion-ordered deduplication and serialization. -/
def getStyle (width height aspectRatio : Option ℚ) (layout : Option Layout)
    (objectFit objectPosition : String) (background : Option String) : String :=
  serializeStyles (fromEntries (filterStyleEntries
    (styleEntries width height aspectRatio layout objectFit objectPosition background)))

/-- TS `getBreakpoints` (lines 284–315). -/
def getBreakpoints (width : Option ℚ) (breakpoints : Option (List ℚ))
    (layout : Layout) : List ℚ :=
  if layout = Layout.fullWidth ∨ layout = Layout.cover ∨ layout = Layout.responsive
      ∨ layout = Layout.contained then
    breakpoints.getD deviceSizes
  else
    match width with
    | none => []
    | some w =>
      if w = 0 then []
      else
        let doubleWidth := w * 2
        if layout = Layout.fixed then [w, doubleWidth]
        else if layout = Layout.constrained then
          [w, doubleWidth] ++ (breakpoints.getD deviceSizes).filter (fun b => b < doubleWidth)
        else []

/-- Worker for `jsSetDedup`: keep each value at its first occurrence,
skipping values already `seen`. -/
def jsSetDedupAux (seen : List ℚ) : List ℚ → List ℚ
  | [] => []
  | x :: xs =>
    if x ∈ seen then jsSetDedupAux seen xs
    else x :: jsSetDedupAux (x :: seen) xs

/-- JavaScript `new Set(...)` iteration order: each value at its first
occurrence. -/
def jsSetDedup (l : List ℚ) : List ℚ :=
  jsSetDedupAux [] l

/-- The caller post-processing `[...new Set(breakpoints)].sort((a, b) => a - b)`
of `getImagesOptimized`.  On a duplicate-free list every comparison sort
agrees, so the numeric ascending sort is modelled by `List.insertionSort`. -/
def dedupSortAsc (l : List ℚ) : List ℚ :=
  List.insertionSort (fun a b => a ≤ b) (jsSetDedup l)

/-- The deduplicated ascending breakpoint sequence that `getImagesOptimized`
passes to the transform. -/
def finalBreakpoints (width : Option ℚ) (widths : Option (List ℚ))
    (layout : Layout) : List ℚ :=
  dedupSortAsc (getBreakpoints width widths layout)

/-- Astro `ImageMetadata` restricted to the fields the resolver reads:
intrinsic `width` and `height` and the resolved `src` URL. -/
structure ImageMetadata where
  src : String
  width : ℚ
  height : ℚ
deriving DecidableEq

/-- The `image` argument of `getImagesOptimized`: a plain URL string or a
structured `ImageMetadata` descriptor. -/
inductive ImageInput
  | str (url : String)
  | metadata (m : ImageMetadata)
deriving DecidableEq

/-- The fields of TS `ImageProps` that `getImagesOptimized` destructures
(`src` is discarded by the destructuring; `rest` is the pass-through
attribute bag, modelled as ordered key/value pairs). -/
structure ImageProps where
  width : Option ℚ
  height : Option ℚ
  sizes : Option String
  aspectRatio : AspectRatioInput
  widths : Option (List ℚ)
  layout : Option Layout
  style : Option String
  rest : List (String × String)
deriving DecidableEq

/-- The attribute bag returned by `getImagesOptimized`. -/
structure Attributes where
  width : Option ℚ
  height : Option ℚ
  srcset : Option String
  sizes : Option String
  style : String
  rest : List (String × String)
deriving DecidableEq

/-- The result `{ src, attributes }` of `getImagesOptimized`. -/
structure OptimizedImage where
  src : String
  attributes : Attributes
deriving DecidableEq

/-- The injected `ImagesOptimizer` collaborator, modelled as a pure function
from the image, the breakpoint list and the requested width/height to the
list of `{src, width}` records (the TS version returns it asynchronously). -/
abbrev ImagesOptimizer : Type :=
  ImageInput → List ℚ → Option ℚ → Option ℚ → List (String × ℚ)

/-- The intrinsic-dimension extraction of `getImagesOptimized` (lines
369–372): for a structured descriptor,
`width ||= Number(image.width) || undefined` and
`height ||= typeof width === 'number'
  ? computeHeight(width, image.width / image.height) : undefined`. -/
def extractIntrinsicDimensions (image : ImageInput) (width height : Option ℚ) :
    Option ℚ × Option ℚ :=
  match image with
  | .str _ => (width, height)
  | .metadata m =>
    let w := if numTruthy width then width
             else if m.width = 0 then none else some m.width
    let h := if numTruthy height then height
             else w.map fun wv => computeHeight wv (m.width / m.height)
    (w, h)

/-- The dimension-resolution block of `getImagesOptimized` (lines 381–402):
derive the missing one of `width`/`height` from a truthy `aspectRatio`, or
derive `aspectRatio` from both dimensions; otherwise leave the values
unchanged (the source also logs a diagnostic for non-`fullWidth` layouts,
which carries no data).  Returns the updated `(width, height, aspectRatio)`. -/
def resolveDimensions (width height aspectRatio : Option ℚ) :
    Option ℚ × Option ℚ × Option ℚ :=
  if numTruthy aspectRatio then
    let a := aspectRatio.getD 0
    if numTruthy width then
      if numTruthy height then (width, height, aspectRatio)
      else (width, some (width.getD 0 / a), aspectRatio)
    else if numTruthy height then
      (some (height.getD 0 * a), height, aspectRatio)
    else (width, height, aspectRatio)
  else if numTruthy width && numTruthy height then
    (width, height, some (width.getD 0 / height.getD 0))
  else (width, height, aspectRatio)

/-- The `"{url} {width}w"` formatting of one transform entry in the `srcset`
assembly of `getImagesOptimized`. -/
def srcsetEntry (e : String × ℚ) : String :=
  e.1 ++ " " ++ qToString e.2 ++ "w"

/-- TS `getImagesOptimized` (lines 364–427): intrinsic-dimension extraction,
numeric coercion, `widths`/`sizes`/`layout` defaulting, aspect-ratio
resolution, breakpoint computation, `srcset` assembly and the final
`{ src, attributes }` record. -/
def getImagesOptimized (image : ImageInput) (props : ImageProps)
    (transform : ImagesOptimizer) : OptimizedImage :=
  let extracted := extractIntrinsicDimensions image props.width props.height
  -- width = (width && Number(width)) || undefined;  height likewise
  let width1 := normNum extracted.1
  let height1 := normNum extracted.2
  -- widths ||= config.deviceSizes;  layout = 'constrained' default
  let widths := props.widths.getD deviceSizes
  let layout := props.layout.getD Layout.constrained
  -- sizes ||= getSizes(Number(width) || undefined, layout);
  let sizes := if strTruthy props.sizes then props.sizes
               else getSizes width1 (some layout)
  -- aspectRatio = parseAspectRatio(aspectRatio); then the resolution block
  let dims := resolveDimensions width1 height1 (parseAspectRatio props.aspectRatio)
  let width2 := dims.1
  let height2 := dims.2.1
  let ratio2 := dims.2.2
  let breakpoints := finalBreakpoints width2 (some widths) layout
  let entries := transform image breakpoints (normNum width2) (normNum height2)
  let srcsetStr := joinSep ", " (entries.map srcsetEntry)
  let srcset := if srcsetStr = "" then none else some srcsetStr
  let styleStr :=
    getStyle width2 height2 ratio2 (some layout) "cover" "center" none
      ++ props.style.getD ""
  ⟨match image with
    | .str url => url
    | .metadata m => m.src,
   ⟨width2, height2, srcset, sizes, styleStr, props.rest⟩⟩

/-- A normalized blog post restricted to the fields `getRelatedPosts` reads:
its slug, its category slug (categories are `{slug, title}` records or
`undefined`) and its tag slugs (`tags` is an array of `{slug, title}` records
or `undefined`). -/
structure Post where
  slug : String
  category : Option String
  tags : Option (List String)
deriving DecidableEq

/-- The `SCORE` computed for one candidate post in `getRelatedPosts` (lines
271–282): `SCORE_POSTS_INCREMENT = 5` when both categories are present with
equal slugs, plus `1` for each of the candidate's tags whose slug is in the
set of the original post's tag slugs (a duplicated candidate tag counts every
time; `originalTagsSet` is empty when the original post has no `tags`). -/
def relScore (originalPost iteratedPost : Post) : ℕ :=
  (match iteratedPost.category, originalPost.category with
   | some c1, some c2 => if c1 = c2 then 5 else 0
   | _, _ => 0)
  + (match iteratedPost.tags with
     | some tags => (tags.filter fun t => (originalPost.tags.getD []).contains t).length
     | none => 0)

/-- The `reduce` of `getRelatedPosts` (lines 268–286): accumulate
`{post, score}` pairs in input order, skipping any post whose slug equals the
original post's slug. -/
def postsWithScores (allPosts : List Post) (originalPost : Post) :
    List (Post × ℕ) :=
  allPosts.foldl
    (fun acc p =>
      if p.slug = originalPost.slug then acc
      else acc ++ [(p, relScore originalPost p)])
    []

/-- TS `getRelatedPosts` (lines 264–298) with the post collection passed
explicitly (the source obtains it from `fetchPosts()`): score every other
post, sort by descending score (`sort((a, b) => b.score - a.score)` is a
stable descending sort, modelled by `insertionSort` with the reflexive
relation `b.2 ≤ a.2`, which is the same stable sort), and take the first
`maxResults` posts. -/
def getRelatedPosts (allPosts : List Post) (originalPost : Post)
    (maxResults : ℕ) : List Post :=
  let sorted := List.insertionSort (fun a b => b.2 ≤ a.2)
    (postsWithScores allPosts originalPost)
  (sorted.take maxResults).map Prod.fst

/-! Helper lemmas. -/

/-- Appending the suffix `"px"` never yields the empty string, so pixelated
values survive the truthiness filter of `getStyle`. -/
lemma append_px_ne_empty (s : String) : ¬(s ++ "px" = "") := by
  intro h
  have h2 := congrArg String.length h
  simp [String.length_append] at h2
  exact absurd h2.2 (by decide)

/-- The filtered style entries of a `fixed`-layout `getStyle` call with
present width and height and no background. -/
lemma filterStyleEntries_fixed (w h : ℚ) (ar : Option ℚ) :
    filterStyleEntries (styleEntries (some w) (some h) ar (some .fixed) "cover" "center" none) =
      [("object-fit", "cover"), ("object-position", "center"),
       ("width", qToString w ++ "px"), ("height", qToString h ++ "px"),
       ("object-position", "top left")] := by
  simp [styleEntries, filterStyleEntries, pixelate, append_px_ne_empty]

/-- Closed form of `getStyle` for layout `fixed` with present width and
height: the base `object-position: center` is overridden in place by
`top left`, and the pixel width and height declarations follow. -/
lemma getStyle_fixed (w h : ℚ) (ar : Option ℚ) :
    getStyle (some w) (some h) ar (some .fixed) "cover" "center" none =
      "object-fit: cover; object-position: top left; width: " ++ qToString w ++
        "px; height: " ++ qToString h ++ "px;" := by
  unfold getStyle
  rw [filterStyleEntries_fixed]
  apply String.ext
  simp [serializeStyles, fromEntries, upsert, joinSep, String.data_append]

/-- Values produced by the dedup worker avoid the `seen` accumulator and the
result has no duplicates. -/
lemma jsSetDedupAux_nodup :
    ∀ (l seen : List ℚ), (∀ a ∈ jsSetDedupAux seen l, a ∉ seen)
      ∧ (jsSetDedupAux seen l).Nodup := by
  intro l
  induction l with
  | nil => intro seen; simp [jsSetDedupAux]
  | cons x xs ih =>
    intro seen
    by_cases hx : x ∈ seen
    · simpa [jsSetDedupAux, hx] using ih seen
    · have hrec := ih (x :: seen)
      refine ⟨?_, ?_⟩
      · intro a ha
        rw [jsSetDedupAux, if_neg hx] at ha
        rcases List.mem_cons.1 ha with h1 | h2
        · exact h1 ▸ hx
        · exact fun hs => (hrec.1 a h2) (List.mem_cons_of_mem x hs)
      · rw [jsSetDedupAux, if_neg hx]
        refine List.nodup_cons.2 ⟨fun hmem => ?_, hrec.2⟩
        exact (hrec.1 x hmem) (List.mem_cons_self x seen)

/-- Set semantics: the deduplicated list has no duplicates. -/
lemma nodup_jsSetDedup (l : List ℚ) : (jsSetDedup l).Nodup :=
  (jsSetDedupAux_nodup l []).2

/-- The caller post-processing produces a strictly increasing sequence:
deduplicated and sorted ascending. -/
lemma pairwise_lt_dedupSortAsc (l : List ℚ) :
    (dedupSortAsc l).Pairwise (· < ·) := by
  have hs : (dedupSortAsc l).Pairwise (· ≤ ·) :=
    List.sorted_insertionSort (fun a b => a ≤ b) (jsSetDedup l)
  have hn : (dedupSortAsc l).Nodup :=
    ((List.perm_insertionSort (fun a b => a ≤ b) (jsSetDedup l)).nodup_iff).2
      (nodup_jsSetDedup l)
  exact (hs.and hn).imp fun hab => lt_of_le_of_ne hab.1 hab.2

/-! Claim theorems. -/

/-- Claim C1, counterexample: at the defined width `0` with layout
`constrained`, `getBreakpoints` returns the empty list, not the
`[width, 2×width] ++ filtered candidates` list (`[0, 0]`) the claim
predicts for every defined width. -/
theorem c1_constrained_breakpoints_counterexample :
    getBreakpoints (some 0) (some [100]) Layout.constrained = []
      ∧ ([] : List ℚ) ≠ [0, 0 * 2] ++ ([100] : List ℚ).filter (fun b => b < 0 * 2) := by
  constructor
  · decide
  · decide

/-- Claim C1 (amended: the width must also be truthy, i.e. nonzero — the
source guard `if (!width) return []` also sends width `0` to the empty
list): for layout `constrained` and a defined nonzero width `w`,
`getBreakpoints` returns `w`, `2w`, followed by the supplied candidate widths
(or the default device table when none are supplied) filtered to values
strictly below `2w`; for an undefined or zero width it returns the empty
list; and for width `800` the final breakpoint sequence contains `800` and
`1600` and no candidate `≥ 1600`. -/
theorem c1_constrained_breakpoints (w : ℚ) (cands : List ℚ) (hw : w ≠ 0) :
    getBreakpoints (some w) (some cands) Layout.constrained
        = [w, w * 2] ++ cands.filter (fun b => b < w * 2)
      ∧ getBreakpoints (some w) none Layout.constrained
        = [w, w * 2] ++ deviceSizes.filter (fun b => b < w * 2)
      ∧ getBreakpoints none (some cands) Layout.constrained = []
      ∧ getBreakpoints (some 0) (some cands) Layout.constrained = []
      ∧ (800 : ℚ) ∈ finalBreakpoints (some 800) none Layout.constrained
      ∧ (1600 : ℚ) ∈ finalBreakpoints (some 800) none Layout.constrained
      ∧ (∀ c ∈ deviceSizes, (1600 : ℚ) ≤ c →
          c ∉ finalBreakpoints (some 800) none Layout.constrained) := by
  refine ⟨?_, ?_, rfl, rfl, ?_, ?_, ?_⟩
  · simp [getBreakpoints, hw]
  · simp [getBreakpoints, hw]
  · decide
  · decide
  · decide

/-- Claim C1, witness at width `800` with candidates `[100, 2000]`. -/
theorem c1_constrained_breakpoints_witness :
    getBreakpoints (some 800) (some [100, 2000]) Layout.constrained
        = [800, (800 : ℚ) * 2] ++ ([100, 2000] : List ℚ).filter (fun b => b < 800 * 2)
      ∧ getBreakpoints (some 800) none Layout.constrained
        = [800, (800 : ℚ) * 2] ++ deviceSizes.filter (fun b => b < 800 * 2)
      ∧ getBreakpoints none (some [100, 2000]) Layout.constrained = []
      ∧ getBreakpoints (some 0) (some [100, 2000]) Layout.constrained = []
      ∧ (800 : ℚ) ∈ finalBreakpoints (some 800) none Layout.constrained
      ∧ (1600 : ℚ) ∈ finalBreakpoints (some 800) none Layout.constrained
      ∧ (∀ c ∈ deviceSizes, (1600 : ℚ) ≤ c →
          c ∉ finalBreakpoints (some 800) none Layout.constrained) :=
  c1_constrained_breakpoints 800 [100, 2000] (by norm_num)

/-- Claim C2, counterexample: at the defined width `0` with layout `fixed`,
`getBreakpoints` returns the empty list rather than `[0, 0]`, and `getSizes`
returns `undefined` rather than `"0px"`, contrary to the claim's prediction
for every defined width. -/
theorem c2_fixed_layout_counterexample :
    getBreakpoints (some 0) none Layout.fixed = []
      ∧ ([] : List ℚ) ≠ [0, 0 * 2]
      ∧ getSizes (some 0) (some Layout.fixed) = none
      ∧ (none : Option String) ≠ some "0px" := by
  refine ⟨rfl, by decide, rfl, by decide⟩

/-- Claim C2 (amended: the width must also be truthy, i.e. nonzero — the
source guards `if (!width)` in `getBreakpoints` and `getSizes` also send
width `0` to the empty list resp. `undefined`): for layout `fixed` with a
defined nonzero width `w` (and height `h`), `getBreakpoints` returns exactly
`[w, 2w]` (and `[]` when the width is undefined), `getSizes` returns
`"{w}px"`, and the `getStyle` output contains the declarations
`width: {w}px; height: {h}px;` and `object-position: top left`, the latter
overriding the base `object-position: center`. -/
theorem c2_fixed_layout (w h : ℚ) (bps : Option (List ℚ)) (ar : Option ℚ)
    (hw : w ≠ 0) :
    getBreakpoints (some w) bps Layout.fixed = [w, w * 2]
      ∧ getBreakpoints none bps Layout.fixed = []
      ∧ getSizes (some w) (some Layout.fixed) = some (qToString w ++ "px")
      ∧ getStyle (some w) (some h) ar (some Layout.fixed) "cover" "center" none
          = "object-fit: cover; object-position: top left; width: " ++ qToString w ++
            "px; height: " ++ qToString h ++ "px;"
      ∧ (∃ pre post,
          getStyle (some w) (some h) ar (some Layout.fixed) "cover" "center" none
            = pre ++ ("width: " ++ qToString w ++ "px; height: " ++ qToString h ++ "px;")
                ++ post)
      ∧ (∃ pre post,
          getStyle (some w) (some h) ar (some Layout.fixed) "cover" "center" none
            = pre ++ "object-position: top left" ++ post) := by
  refine ⟨?_, rfl, ?_, getStyle_fixed w h ar, ?_, ?_⟩
  · simp [getBreakpoints, hw]
  · simp [getSizes, hw]
  · refine ⟨"object-fit: cover; object-position: top left; ", "", ?_⟩
    rw [getStyle_fixed]
    apply String.ext
    simp [String.data_append]
  · refine ⟨"object-fit: cover; ",
      "; width: " ++ qToString w ++ "px; height: " ++ qToString h ++ "px;", ?_⟩
    rw [getStyle_fixed]
    apply String.ext
    simp [String.data_append]

/-- Claim C2, witness at width `100` and height `50`. -/
theorem c2_fixed_layout_witness :
    getBreakpoints (some 100) none Layout.fixed = [100, (100 : ℚ) * 2]
      ∧ getBreakpoints none none Layout.fixed = []
      ∧ getSizes (some 100) (some Layout.fixed) = some (qToString 100 ++ "px")
      ∧ getStyle (some 100) (some 50) none (some Layout.fixed) "cover" "center" none
          = "object-fit: cover; object-position: top left; width: " ++ qToString 100 ++
            "px; height: " ++ qToString 50 ++ "px;"
      ∧ (∃ pre post,
          getStyle (some 100) (some 50) none (some Layout.fixed) "cover" "center" none
            = pre ++ ("width: " ++ qToString 100 ++ "px; height: " ++ qToString 50 ++ "px;")
                ++ post)
      ∧ (∃ pre post,
          getStyle (some 100) (some 50) none (some Layout.fixed) "cover" "center" none
            = pre ++ "object-position: top left" ++ post) :=
  c2_fixed_layout 100 50 none none (by norm_num)

/-- Claim C3: in the dimension normalization of `getImagesOptimized`, a
truthy aspect ratio with only a width derives `height = width / aspectRatio`;
with only a height it derives `width = height * aspectRatio`; and with no
aspect ratio but both dimensions it derives `aspectRatio = width / height`.
The concrete conjuncts run the claim's examples, the `width`/`height` ones
end-to-end through `getImagesOptimized`. -/
theorem c3_dimension_resolution (a w h : ℚ) (ha : a ≠ 0) (hw : w ≠ 0)
    (hh : h ≠ 0) :
    resolveDimensions (some w) none (some a) = (some w, some (w / a), some a)
      ∧ resolveDimensions none (some h) (some a) = (some (h * a), some h, some a)
      ∧ resolveDimensions (some w) (some h) none = (some w, some h, some (w / h))
      ∧ (getImagesOptimized (.str "img")
            ⟨some 100, none, none, .num 2, none, none, none, []⟩
            (fun _ _ _ _ => [])).attributes.height = some 50
      ∧ (getImagesOptimized (.str "img")
            ⟨none, some 50, none, .num 2, none, none, none, []⟩
            (fun _ _ _ _ => [])).attributes.width = some 100
      ∧ resolveDimensions (some 100) (some 50) none = (some 100, some 50, some 2) := by
  refine ⟨?_, ?_, ?_, by decide, by decide, by decide⟩
  · simp [resolveDimensions, numTruthy, ha, hw]
  · simp [resolveDimensions, numTruthy, ha, hh]
  · simp [resolveDimensions, numTruthy, hw, hh]

/-- Claim C3, witness at `aspectRatio = 2`, `width = 100`, `height = 50`. -/
theorem c3_dimension_resolution_witness :
    resolveDimensions (some 100) none (some 2) = (some 100, some ((100 : ℚ) / 2), some 2)
      ∧ resolveDimensions none (some 50) (some 2) = (some ((50 : ℚ) * 2), some 50, some 2)
      ∧ resolveDimensions (some 100) (some 50) none
          = (some 100, some 50, some ((100 : ℚ) / 50))
      ∧ (getImagesOptimized (.str "img")
            ⟨some 100, none, none, .num 2, none, none, none, []⟩
            (fun _ _ _ _ => [])).attributes.height = some 50
      ∧ (getImagesOptimized (.str "img")
            ⟨none, some 50, none, .num 2, none, none, none, []⟩
            (fun _ _ _ _ => [])).attributes.width = some 100
      ∧ resolveDimensions (some 100) (some 50) none = (some 100, some 50, some 2) :=
  c3_dimension_resolution 2 100 50 (by norm_num) (by norm_num) (by norm_num)

/-- Claim C4: `parseAspectRatio` on a string first matches the pattern
`<num>[/:]<den>` and returns `num/den` (the source additionally requires the
matched denominator to be truthy, which the hypothesis `d ≠ 0` reflects);
otherwise the string is parsed as a plain float; unparseable values yield
`undefined` rather than an error, as the concrete `"abc"` conjunct shows
together with totality of the function.  Concretely `"16/9"` and `"16:9"`
yield `16/9`, `"1.5"` yields `1.5`, `"abc"` yields `undefined`. -/
theorem c4_parse_aspect_ratio (s : String) (n d : ℕ)
    (hmatch : findRatioMatch s.data = some (n, d)) (hd : d ≠ 0) :
    parseAspectRatio (.str s) = some ((n : ℚ) / d)
      ∧ (∀ s2 : String, findRatioMatch s2.data = none →
          parseAspectRatio (.str s2) = parseFloat s2)
      ∧ parseAspectRatio (.str "16/9") = some (16 / 9)
      ∧ parseAspectRatio (.str "16:9") = some (16 / 9)
      ∧ parseAspectRatio (.str "1.5") = some 1.5
      ∧ parseAspectRatio (.str "abc") = none := by
  refine ⟨?_, ?_, by decide, by decide, by decide, by decide⟩
  · simp [parseAspectRatio, hmatch, hd]
  · intro s2 h2
    simp [parseAspectRatio, h2]

/-- Claim C4, witness at the input `"16/9"`. -/
theorem c4_parse_aspect_ratio_witness :
    parseAspectRatio (.str "16/9") = some ((16 : ℚ) / (9 : ℕ))
      ∧ (∀ s2 : String, findRatioMatch s2.data = none →
          parseAspectRatio (.str s2) = parseFloat s2)
      ∧ parseAspectRatio (.str "16/9") = some (16 / 9)
      ∧ parseAspectRatio (.str "16:9") = some (16 / 9)
      ∧ parseAspectRatio (.str "1.5") = some 1.5
      ∧ parseAspectRatio (.str "abc") = none :=
  c4_parse_aspect_ratio "16/9" 16 9 (by decide) (by decide)

/-- Batteries' computational `Rat.floor` agrees with Mathlib's `Int.floor`. -/
lemma ratFloor_eq_intFloor (q : ℚ) : q.floor = ⌊q⌋ :=
  (Rat.floor_def' q).trans Rat.floor_def.symm

/-- On a descriptor with positive integral intrinsic dimensions, the source's
`computeHeight(width, image.width / image.height)` recovers the intrinsic
height exactly. -/
lemma computeHeight_intrinsic (W H : ℕ) (hW : 0 < W) :
    computeHeight (W : ℚ) ((W : ℚ) / (H : ℚ)) = (H : ℚ) := by
  have hW' : (W : ℚ) ≠ 0 := Nat.cast_ne_zero.2 hW.ne'
  by_cases hH : H = 0
  · subst hH
    simp [computeHeight, ratFloor_eq_intFloor, hW']
  · have hH' : (H : ℚ) ≠ 0 := Nat.cast_ne_zero.2 hH
    have harg : (W : ℚ) / ((W : ℚ) / (H : ℚ)) = (H : ℚ) := by
      field_simp
    rw [computeHeight, harg, ratFloor_eq_intFloor, Int.floor_natCast]
    simp

/-- Claim C5: when the image is a structured descriptor and the hints omit
`width` and `height`, the resolver extracts the descriptor's intrinsic width
and height (for positive integral intrinsic dimensions), and the attributes
returned by `getImagesOptimized` carry exactly those values, for any
remaining hints and any transform. -/
theorem c5_descriptor_dimensions (W H : ℕ) (src : String) (hW : 0 < W)
    (hH : 0 < H) :
    extractIntrinsicDimensions (.metadata ⟨src, W, H⟩) none none
        = (some (W : ℚ), some (H : ℚ))
      ∧ (∀ (sizes style : Option String) (widths : Option (List ℚ))
            (layout : Option Layout) (rest : List (String × String))
            (t : ImagesOptimizer),
          (getImagesOptimized (.metadata ⟨src, W, H⟩)
              ⟨none, none, sizes, .nullish, widths, layout, style, rest⟩
              t).attributes.width = some (W : ℚ)
          ∧ (getImagesOptimized (.metadata ⟨src, W, H⟩)
              ⟨none, none, sizes, .nullish, widths, layout, style, rest⟩
              t).attributes.height = some (H : ℚ)) := by
  have hW' : (W : ℚ) ≠ 0 := Nat.cast_ne_zero.2 hW.ne'
  have hH' : (H : ℚ) ≠ 0 := Nat.cast_ne_zero.2 hH.ne'
  have hext : extractIntrinsicDimensions (.metadata ⟨src, W, H⟩) none none
      = (some (W : ℚ), some (H : ℚ)) := by
    simp [extractIntrinsicDimensions, numTruthy, hW', computeHeight_intrinsic W H hW]
  refine ⟨hext, ?_⟩
  intro sizes style widths layout rest t
  constructor
  · simp [getImagesOptimized, hext, normNum, numTruthy, hW', hH',
      resolveDimensions, parseAspectRatio]
  · simp [getImagesOptimized, hext, normNum, numTruthy, hW', hH',
      resolveDimensions, parseAspectRatio]

/-- Claim C5, witness at intrinsic dimensions `300 × 200`. -/
theorem c5_descriptor_dimensions_witness :
    extractIntrinsicDimensions (.metadata ⟨"m", (300 : ℕ), (200 : ℕ)⟩) none none
        = (some ((300 : ℕ) : ℚ), some ((200 : ℕ) : ℚ))
      ∧ (∀ (sizes style : Option String) (widths : Option (List ℚ))
            (layout : Option Layout) (rest : List (String × String))
            (t : ImagesOptimizer),
          (getImagesOptimized (.metadata ⟨"m", (300 : ℕ), (200 : ℕ)⟩)
              ⟨none, none, sizes, .nullish, widths, layout, style, rest⟩
              t).attributes.width = some ((300 : ℕ) : ℚ)
          ∧ (getImagesOptimized (.metadata ⟨"m", (300 : ℕ), (200 : ℕ)⟩)
              ⟨none, none, sizes, .nullish, widths, layout, style, rest⟩
              t).attributes.height = some ((200 : ℕ) : ℚ)) :=
  c5_descriptor_dimensions 300 200 "m" (by norm_num) (by norm_num)

/-- Claim C6: the final breakpoint sequence `getImagesOptimized` passes to
the transform (`finalBreakpoints`, i.e. `[...new Set(bps)].sort((a,b)=>a-b)`
applied to `getBreakpoints`) is strictly increasing — deduplicated and
sorted ascending — for every input; for the layouts `fullWidth`, `cover`,
`responsive` and `contained` the pre-processing returns the supplied
candidates verbatim; and candidates `[200, 100, 200, 300]` under `fullWidth`
yield the final sequence `[100, 200, 300]`, which is what the transform
receives inside `getImagesOptimized`. -/
theorem c6_breakpoints_dedup_sorted (w : Option ℚ) (ws : Option (List ℚ))
    (l : Layout) (cands : List ℚ) :
    (finalBreakpoints w ws l).Pairwise (· < ·)
      ∧ ((l = Layout.fullWidth ∨ l = Layout.cover ∨ l = Layout.responsive
            ∨ l = Layout.contained) →
          getBreakpoints w (some cands) l = cands)
      ∧ finalBreakpoints w (some [200, 100, 200, 300]) Layout.fullWidth
          = [100, 200, 300]
      ∧ (getImagesOptimized (.str "u")
            ⟨none, none, none, .nullish, some [200, 100, 200, 300],
              some Layout.fullWidth, none, []⟩
            (fun _ bps _ _ => bps.map fun b => ("u", b))).attributes.srcset
          = some "u 100w, u 200w, u 300w" := by
  refine ⟨?_, ?_, rfl, by decide⟩
  · unfold finalBreakpoints
    exact pairwise_lt_dedupSortAsc _
  · intro hl
    rcases hl with h | h | h | h <;> subst h <;> simp [getBreakpoints]

/-- Claim C6, witness at layout `fullWidth` with candidates `[1, 2]`. -/
theorem c6_breakpoints_dedup_sorted_witness :
    (finalBreakpoints none none Layout.fullWidth).Pairwise (· < ·)
      ∧ ((Layout.fullWidth = Layout.fullWidth ∨ Layout.fullWidth = Layout.cover
            ∨ Layout.fullWidth = Layout.responsive
            ∨ Layout.fullWidth = Layout.contained) →
          getBreakpoints none (some [1, 2]) Layout.fullWidth = [1, 2])
      ∧ finalBreakpoints none (some [200, 100, 200, 300]) Layout.fullWidth
          = [100, 200, 300]
      ∧ (getImagesOptimized (.str "u")
            ⟨none, none, none, .nullish, some [200, 100, 200, 300],
              some Layout.fullWidth, none, []⟩
            (fun _ bps _ _ => bps.map fun b => ("u", b))).attributes.srcset
          = some "u 100w, u 200w, u 300w" :=
  c6_breakpoints_dedup_sorted none none Layout.fullWidth [1, 2]

/-- A string append with a nonempty left part is nonempty. -/
lemma append_ne_empty_left (s t : String) (hs : s ≠ "") : s ++ t ≠ "" := by
  intro h
  have h2 := congrArg String.length h
  simp [String.length_append] at h2
  exact hs (by
    have := h2.1
    cases s with
    | mk data => cases data with
      | nil => rfl
      | cons c cs => simp [String.length] at this)

/-- A string append with a nonempty right part is nonempty. -/
lemma append_ne_empty_right (s t : String) (ht : t ≠ "") : s ++ t ≠ "" := by
  intro h
  have h2 := congrArg String.length h
  simp [String.length_append] at h2
  exact ht (by
    have := h2.2
    cases t with
    | mk data => cases data with
      | nil => rfl
      | cons c cs => simp [String.length] at this)

/-- A formatted `"{url} {width}w"` srcset entry is never the empty string. -/
lemma srcsetEntry_ne_empty (e : String × ℚ) : srcsetEntry e ≠ "" :=
  append_ne_empty_right _ _ (by decide)

/-- Joining a nonempty list of nonempty strings yields a nonempty string. -/
lemma joinSep_ne_empty (sep : String) :
    ∀ l : List String, (∀ x ∈ l, x ≠ "") → l ≠ [] → joinSep sep l ≠ ""
  | [], _, hl => absurd rfl hl
  | [a], hall, _ => by simpa [joinSep] using hall a (by simp)
  | a :: b :: rest, hall, _ => by
    rw [joinSep]
    exact append_ne_empty_left _ _
      (append_ne_empty_left _ _ (hall a (by simp)))

/-- Claim C7: when the transform returns the empty list, the returned
`attributes.srcset` of `getImagesOptimized` is `undefined`, not the empty
string; when the transform returns a non-empty entry list, `srcset` is the
entries formatted as `"{url} {width}w"` joined by `", "`. -/
theorem c7_srcset_undefined_or_joined (image : ImageInput) (props : ImageProps)
    (entries : List (String × ℚ)) :
    (getImagesOptimized image props (fun _ _ _ _ => [])).attributes.srcset = none
      ∧ (entries ≠ [] →
          (getImagesOptimized image props (fun _ _ _ _ => entries)).attributes.srcset
            = some (joinSep ", " (entries.map srcsetEntry))) := by
  constructor
  · rfl
  · intro h
    have hne : joinSep ", " (entries.map srcsetEntry) ≠ "" := by
      refine joinSep_ne_empty ", " _ (fun x hx => ?_) (by simpa using h)
      rcases List.mem_map.1 hx with ⟨e, _, rfl⟩
      exact srcsetEntry_ne_empty e
    simp [getImagesOptimized, hne]

/-- Claim C7, witness with the entry list `[("x", 100)]`. -/
theorem c7_srcset_undefined_or_joined_witness :
    (getImagesOptimized (.str "u")
        ⟨none, none, none, .nullish, none, none, none, []⟩
        (fun _ _ _ _ => [])).attributes.srcset = none
      ∧ (([("x", (100 : ℚ))] : List (String × ℚ)) ≠ [] →
          (getImagesOptimized (.str "u")
              ⟨none, none, none, .nullish, none, none, none, []⟩
              (fun _ _ _ _ => [("x", (100 : ℚ))])).attributes.srcset
            = some (joinSep ", " (([("x", (100 : ℚ))] : List (String × ℚ)).map srcsetEntry))) :=
  c7_srcset_undefined_or_joined (.str "u")
    ⟨none, none, none, .nullish, none, none, none, []⟩ [("x", 100)]

/-- Claim C8, counterexample: at the present width `0` with layout `fixed`,
`getSizes` returns `undefined` rather than the `"0px"` the claim predicts
whenever width and layout are both present. -/
theorem c8_get_sizes_counterexample :
    getSizes (some 0) (some Layout.fixed) = none
      ∧ (none : Option String) ≠ some "0px" := by
  exact ⟨rfl, by decide⟩

/-- Claim C8 (amended: a present width of `0` is falsy under the source guard
`if (!width || !layout)` and also yields `undefined`): `getSizes` returns
`undefined` whenever `width` or `layout` is absent or the width is zero;
otherwise it returns `"(min-width: {w}px) {w}px, 100vw"` for `constrained`,
`"{w}px"` for `fixed`, `"100vw"` for `fullWidth`, and `undefined` for the
remaining layouts `cover`, `responsive` and `contained`. -/
theorem c8_get_sizes (w : ℚ) (wo : Option ℚ) (lo : Option Layout) (hw : w ≠ 0) :
    getSizes wo none = none
      ∧ getSizes none lo = none
      ∧ getSizes (some 0) lo = none
      ∧ getSizes (some w) (some Layout.constrained)
          = some ("(min-width: " ++ qToString w ++ "px) " ++ qToString w ++ "px, 100vw")
      ∧ getSizes (some w) (some Layout.fixed) = some (qToString w ++ "px")
      ∧ getSizes (some w) (some Layout.fullWidth) = some "100vw"
      ∧ getSizes (some w) (some Layout.cover) = none
      ∧ getSizes (some w) (some Layout.responsive) = none
      ∧ getSizes (some w) (some Layout.contained) = none := by
  refine ⟨?_, ?_, ?_, ?_, ?_, ?_, ?_, ?_, ?_⟩
  · cases wo <;> rfl
  · rfl
  · cases lo <;> rfl
  · simp [getSizes, hw]
  · simp [getSizes, hw]
  · simp [getSizes, hw]
  · simp [getSizes, hw]
  · simp [getSizes, hw]
  · simp [getSizes, hw]

/-- Claim C8, witness at width `800`. -/
theorem c8_get_sizes_witness :
    getSizes (some 3) none = none
      ∧ getSizes none (some Layout.cover) = none
      ∧ getSizes (some 0) (some Layout.cover) = none
      ∧ getSizes (some 800) (some Layout.constrained)
          = some ("(min-width: " ++ qToString 800 ++ "px) " ++ qToString 800 ++ "px, 100vw")
      ∧ getSizes (some 800) (some Layout.fixed) = some (qToString 800 ++ "px")
      ∧ getSizes (some 800) (some Layout.fullWidth) = some "100vw"
      ∧ getSizes (some 800) (some Layout.cover) = none
      ∧ getSizes (some 800) (some Layout.responsive) = none
      ∧ getSizes (some 800) (some Layout.contained) = none :=
  c8_get_sizes 800 (some 3) (some Layout.cover) (by norm_num)

/-- Claim C9: `getImagesOptimized` is deterministic — two calls with equal
image, equal hints and the same (deterministic, here pure) transform produce
identical results: the same `src` and identical attributes, `srcset`, `sizes`
and `style` strings included.  In this embedding the resolver is a pure
function of its three arguments: it reads only the immutable module `config`
and shares no mutable state between calls. -/
theorem c9_resolver_deterministic (i1 i2 : ImageInput) (p1 p2 : ImageProps)
    (t1 t2 : ImagesOptimizer) (hi : i1 = i2) (hp : p1 = p2) (ht : t1 = t2) :
    getImagesOptimized i1 p1 t1 = getImagesOptimized i2 p2 t2
      ∧ (getImagesOptimized i1 p1 t1).src = (getImagesOptimized i2 p2 t2).src
      ∧ (getImagesOptimized i1 p1 t1).attributes
          = (getImagesOptimized i2 p2 t2).attributes := by
  subst hi hp ht
  exact ⟨rfl, rfl, rfl⟩

/-- Claim C9, witness at a concrete repeated call. -/
theorem c9_resolver_deterministic_witness :
    getImagesOptimized (.str "u") ⟨none, none, none, .nullish, none, none, none, []⟩
          (fun _ _ _ _ => [])
        = getImagesOptimized (.str "u") ⟨none, none, none, .nullish, none, none, none, []⟩
          (fun _ _ _ _ => [])
      ∧ (getImagesOptimized (.str "u") ⟨none, none, none, .nullish, none, none, none, []⟩
          (fun _ _ _ _ => [])).src
        = (getImagesOptimized (.str "u") ⟨none, none, none, .nullish, none, none, none, []⟩
          (fun _ _ _ _ => [])).src
      ∧ (getImagesOptimized (.str "u") ⟨none, none, none, .nullish, none, none, none, []⟩
          (fun _ _ _ _ => [])).attributes
        = (getImagesOptimized (.str "u") ⟨none, none, none, .nullish, none, none, none, []⟩
          (fun _ _ _ _ => [])).attributes :=
  c9_resolver_deterministic (.str "u") (.str "u")
    ⟨none, none, none, .nullish, none, none, none, []⟩
    ⟨none, none, none, .nullish, none, none, none, []⟩
    (fun _ _ _ _ => []) (fun _ _ _ _ => []) rfl rfl rfl

/-- Invariant of the scoring fold of `getRelatedPosts`: starting from an
accumulator of pairs that avoid the original slug and carry their recomputed
score, every accumulated pair avoids the original slug and carries its
recomputed score. -/
lemma postsWithScores_inv (o : Post) :
    ∀ (l : List Post) (acc : List (Post × ℕ)),
      (∀ e ∈ acc, e.1.slug ≠ o.slug ∧ e.2 = relScore o e.1) →
      ∀ e ∈ l.foldl
        (fun acc p => if p.slug = o.slug then acc else acc ++ [(p, relScore o p)])
        acc,
        e.1.slug ≠ o.slug ∧ e.2 = relScore o e.1 := by
  intro l
  induction l with
  | nil => intro acc hacc; simpa using hacc
  | cons p rest ih =>
    intro acc hacc e he
    rw [List.foldl_cons] at he
    refine ih _ ?_ e he
    intro e2 he2
    by_cases hp : p.slug = o.slug
    · rw [if_pos hp] at he2
      exact hacc e2 he2
    · rw [if_neg hp] at he2
      rcases List.mem_append.1 he2 with h1 | h2
      · exact hacc e2 h1
      · rw [List.mem_singleton] at h2
        subst h2
        exact ⟨hp, rfl⟩

/-- Every scored pair of `postsWithScores` avoids the original post's slug
and carries the recomputed relevance score. -/
lemma mem_postsWithScores {allPosts : List Post} {o : Post} {e : Post × ℕ}
    (he : e ∈ postsWithScores allPosts o) :
    e.1.slug ≠ o.slug ∧ e.2 = relScore o e.1 :=
  postsWithScores_inv o allPosts [] (by simp) e he

instance : IsTotal (Post × ℕ) (fun a b => b.2 ≤ a.2) :=
  ⟨fun a b => le_total b.2 a.2⟩

instance : IsTrans (Post × ℕ) (fun a b => b.2 ≤ a.2) :=
  ⟨fun _ _ _ h1 h2 => le_trans h2 h1⟩

/-- Claim C10: for every post collection, original post and `maxResults`,
`getRelatedPosts` returns at most `maxResults` posts, never includes a post
whose slug equals the original post's slug, and orders its result by
non-increasing relevance score, where a candidate scores `5` for a matching
category slug plus `1` for each of its tags whose slug is among the original
post's tag slugs (`relScore`). -/
theorem c10_related_posts (allPosts : List Post) (o : Post) (maxResults : ℕ) :
    (getRelatedPosts allPosts o maxResults).length ≤ maxResults
      ∧ (∀ p ∈ getRelatedPosts allPosts o maxResults, p.slug ≠ o.slug)
      ∧ (getRelatedPosts allPosts o maxResults).Pairwise
          (fun p q => relScore o q ≤ relScore o p) := by
  have hsorted0 : List.Sorted (fun a b : Post × ℕ => b.2 ≤ a.2)
      (List.insertionSort (fun a b => b.2 ≤ a.2) (postsWithScores allPosts o)) :=
    List.sorted_insertionSort (fun a b => b.2 ≤ a.2) (postsWithScores allPosts o)
  have hsorted : (List.insertionSort (fun a b => b.2 ≤ a.2)
      (postsWithScores allPosts o)).Pairwise (fun a b : Post × ℕ => b.2 ≤ a.2) :=
    hsorted0
  have hmem : ∀ e ∈ (List.insertionSort (fun a b => b.2 ≤ a.2)
      (postsWithScores allPosts o)).take maxResults,
      e.1.slug ≠ o.slug ∧ e.2 = relScore o e.1 := by
    intro e he
    have he2 := (List.perm_insertionSort (fun a b => b.2 ≤ a.2)
      (postsWithScores allPosts o)).mem_iff.1 (List.mem_of_mem_take he)
    exact mem_postsWithScores he2
  refine ⟨?_, ?_, ?_⟩
  · simp only [getRelatedPosts, List.length_map]
    exact List.length_take_le maxResults _
  · intro p hp
    simp only [getRelatedPosts] at hp
    rcases List.mem_map.1 hp with ⟨e, he, rfl⟩
    exact (hmem e he).1
  · simp only [getRelatedPosts]
    rw [List.pairwise_map]
    have htake := List.Pairwise.sublist (List.take_sublist maxResults _) hsorted
    refine htake.imp_of_mem ?_
    intro a b ha hb hr
    rw [← (hmem a ha).2, ← (hmem b hb).2]
    exact hr

/-- Claim C10, witness on a four-post collection with `maxResults = 2`. -/
theorem c10_related_posts_witness :
    (getRelatedPosts
          [⟨"a", some "c", some ["t1"]⟩, ⟨"orig", some "c", some ["t1"]⟩,
           ⟨"b", some "d", some ["t1", "t2"]⟩, ⟨"c", some "c", some ["t1", "t2"]⟩]
          ⟨"orig", some "c", some ["t1", "t2"]⟩ 2).length ≤ 2
      ∧ (∀ p ∈ getRelatedPosts
            [⟨"a", some "c", some ["t1"]⟩, ⟨"orig", some "c", some ["t1"]⟩,
             ⟨"b", some "d", some ["t1", "t2"]⟩, ⟨"c", some "c", some ["t1", "t2"]⟩]
            ⟨"orig", some "c", some ["t1", "t2"]⟩ 2,
          p.slug ≠ (Post.mk "orig" (some "c") (some ["t1", "t2"])).slug)
      ∧ (getRelatedPosts
            [⟨"a", some "c", some ["t1"]⟩, ⟨"orig", some "c", some ["t1"]⟩,
             ⟨"b", some "d", some ["t1", "t2"]⟩, ⟨"c", some "c", some ["t1", "t2"]⟩]
            ⟨"orig", some "c", some ["t1", "t2"]⟩ 2).Pairwise
          (fun p q => relScore ⟨"orig", some "c", some ["t1", "t2"]⟩ q
            ≤ relScore ⟨"orig", some "c", some ["t1", "t2"]⟩ p) :=
  c10_related_posts
    [⟨"a", some "c", some ["t1"]⟩, ⟨"orig", some "c", some ["t1"]⟩,
     ⟨"b", some "d", some ["t1", "t2"]⟩, ⟨"c", some "c", some ["t1", "t2"]⟩]
    ⟨"orig", some "c", some ["t1", "t2"]⟩ 2

end ZgCodes
